import Mathlib

/-!
Verification development for the supportbot-go gateway: a shallow
embedding of the session registry with heartbeat-based liveness
(`internal/service` session service and `internal/model` session),
the WebSocket message router (`internal/handler`), the browser-side
pending-response correlation table (`web/js/websocket.js`), and the
bounded tool-calling agent loop (`cmd/assistant/main.go` with the
`tools` registry).  Go maps and the JS `Map` are modelled as
association lists; wall-clock instants are natural-number time units;
transport handles are opaque naturals.
-/

namespace SupportBot

/-! ## Association-list maps -/

/-- Lookup in an association list (model of Go `m[k]` / JS `Map.get`). -/
def alookup {α β : Type} [DecidableEq α] (k : α) : List (α × β) → Option β
  | [] => none
  | (k', v) :: rest => if k' = k then some v else alookup k rest

/-- Remove every binding of a key (model of Go `delete(m, k)` / JS `Map.delete`). -/
def aerase {α β : Type} [DecidableEq α] (k : α) : List (α × β) → List (α × β)
  | [] => []
  | (k', v) :: rest => if k' = k then aerase k rest else (k', v) :: aerase k rest

/-- Overwriting insert (model of Go `m[k] = v` / JS `Map.set`). -/
def ainsert {α β : Type} [DecidableEq α] (k : α) (v : β) (l : List (α × β)) :
    List (α × β) :=
  aerase k l ++ [(k, v)]

/-! ## Session registry (`SessionService`, `UserSession`)

`UserSession` mirrors `internal/model/session.go`; `SessionService`
mirrors the dual index of the session service, with an extra `closed`
ledger recording every transport handle on which `Conn.Close()` has
been invoked (so that "the handle was closed" is observable in the
model). -/

structure UserSession where
  userID : Int
  username : String
  conn : Nat
  sessionID : String
  clientIP : String
  lastHeartbeat : Nat
  missedBeats : Nat
  deriving DecidableEq, Repr

structure SessionService where
  userSessions : List (Int × UserSession)
  sessionToUser : List (String × Int)
  closed : List Nat
  deriving DecidableEq, Repr

/-- The registry a fresh `NewSessionService` starts from. -/
def emptyService : SessionService :=
  { userSessions := [], sessionToUser := [], closed := [] }

/-- `UserSession.UpdateHeartbeat`: refresh the timestamp, zero the counter. -/
def sessionUpdateHeartbeat (sess : UserSession) (now : Nat) : UserSession :=
  { sess with lastHeartbeat := now, missedBeats := 0 }

/-- `UserSession.IncrementMissedBeats`. -/
def incrementMissedBeats (sess : UserSession) : UserSession :=
  { sess with missedBeats := sess.missedBeats + 1 }

/-- `UserSession.ShouldBeCleaned`: `MissedBeats >= 3`. -/
def shouldBeCleaned (sess : UserSession) : Bool :=
  sess.missedBeats ≥ 3

/-- `SessionService.RegisterUser`: if a session already exists for the
user, close its connection and drop its session-id entry, then insert
the new session into both indices. -/
def RegisterUser (s : SessionService) (userID : Int) (username : String)
    (conn : Nat) (sessionID clientIP : String) (now : Nat) : SessionService :=
  let s1 : SessionService :=
    match alookup userID s.userSessions with
    | some existing =>
        { s with
          closed := existing.conn :: s.closed,
          sessionToUser := aerase existing.sessionID s.sessionToUser }
    | none => s
  let sess : UserSession :=
    { userID := userID, username := username, conn := conn,
      sessionID := sessionID, clientIP := clientIP,
      lastHeartbeat := now, missedBeats := 0 }
  { s1 with
    userSessions := ainsert userID sess s1.userSessions,
    sessionToUser := ainsert sessionID userID s1.sessionToUser }

/-- `SessionService.RemoveUserBySessionID`. -/
def RemoveUserBySessionID (s : SessionService) (sessionID : String) : SessionService :=
  match alookup sessionID s.sessionToUser with
  | some userID =>
      { s with
        userSessions := aerase userID s.userSessions,
        sessionToUser := aerase sessionID s.sessionToUser }
  | none => s

/-- `SessionService.RemoveUserByID`. -/
def RemoveUserByID (s : SessionService) (userID : Int) : SessionService :=
  match alookup userID s.userSessions with
  | some sess =>
      { s with
        sessionToUser := aerase sess.sessionID s.sessionToUser,
        userSessions := aerase userID s.userSessions }
  | none => s

inductive SendError where
  | userOffline
  | writeFailed
  deriving DecidableEq, Repr

/-- `SessionService.SendMessageToUser`.  The success of the underlying
`WriteMessage` is an oracle `writeOk`; on failure the session is torn
down via `RemoveUserByID` (the Go code does so in a spawned goroutine;
the model applies the eventual effect). -/
def SendMessageToUser (s : SessionService) (userID : Int) (writeOk : Bool) :
    Except SendError Unit × SessionService :=
  match alookup userID s.userSessions with
  | none => (.error .userOffline, s)
  | some _sess =>
      if writeOk then (.ok (), s)
      else (.error .writeFailed, RemoveUserByID s userID)

/-- `SessionService.UpdateHeartbeat`: look the session up and, when
present, reset its liveness via `UserSession.UpdateHeartbeat`. -/
def ServiceUpdateHeartbeat (s : SessionService) (userID : Int) (now : Nat) :
    Bool × SessionService :=
  match alookup userID s.userSessions with
  | none => (false, s)
  | some sess =>
      (true,
       { s with userSessions := ainsert userID (sessionUpdateHeartbeat sess now) s.userSessions })

/-- One session's treatment inside `heartbeatChecker`'s scan: if the
gap since the last heartbeat exceeds 60 time units, increment the
missed-beat counter; once `ShouldBeCleaned` holds, close the handle
and delete both index entries. -/
def scanSession (now : Nat) (s : SessionService) (userID : Int) : SessionService :=
  match alookup userID s.userSessions with
  | none => s
  | some sess =>
      if now - sess.lastHeartbeat > 60 then
        let sess' := incrementMissedBeats sess
        if shouldBeCleaned sess' then
          { s with
            closed := sess.conn :: s.closed,
            userSessions := aerase userID s.userSessions,
            sessionToUser := aerase sess.sessionID s.sessionToUser }
        else
          { s with userSessions := ainsert userID sess' s.userSessions }
      else s

/-- One full `heartbeatChecker` tick: scan every session present when
the tick starts. -/
def heartbeatScan (now : Nat) (s : SessionService) : SessionService :=
  (s.userSessions.map Prod.fst).foldl (scanSession now) s

/-! ## Inbound messages and the router (`WebSocketHandler.handleMessage`)

`ChatMessage` and `ChatResponse` mirror `internal/model` message
structs.  The handler's asynchronous `chatService.HandleUserMessage`
goroutine is modelled as a job queue entry; the router returns the
list of response frames actually written to the user's connection. -/

structure ChatMessage where
  messageID : String
  type : String
  content : String
  sender : Int
  senderName : String
  sessionID : String
  timestamp : String
  deriving DecidableEq, Repr

structure ChatResponse where
  success : Bool
  messageID : String
  message : String
  deriving DecidableEq, Repr

/-- The fixed acknowledgement text for inbound chat messages. -/
def chatAckText : String := "消息已收到，正在处理中..."

structure IMState where
  svc : SessionService
  jobs : List (Int × String)
  deriving DecidableEq, Repr

/-- `WebSocketHandler.handleMessage`: dispatch one decoded inbound
message by its `type`.  `CHAT` launches the classification job and
immediately writes an acknowledgement; `HEARTBEAT` refreshes liveness
and writes nothing; anything else is logged and discarded. -/
def routerHandleMessage (st : IMState) (userID : Int) (msg : ChatMessage)
    (now : Nat) (writeOk : Bool) : IMState × List (Int × ChatResponse) :=
  if msg.type = "CHAT" then
    let response : ChatResponse :=
      { success := true, messageID := msg.messageID, message := chatAckText }
    let r := SendMessageToUser st.svc userID writeOk
    ({ svc := r.2, jobs := st.jobs ++ [(userID, msg.content)] },
     match r.1 with
     | .ok _ => [(userID, response)]
     | .error _ => [])
  else if msg.type = "HEARTBEAT" then
    ({ st with svc := (ServiceUpdateHeartbeat st.svc userID now).2 }, [])
  else (st, [])

/-! ## Browser pending-response table (`web/js/websocket.js`)

JS property access returns `undefined` for an absent key, so an
inbound frame is a list of named `JSVal` fields.  The pending table
maps message-id strings to an internal token identifying the promise
created by `sendWithResponse`; the armed `setTimeout` timers are kept
alongside (keyed by the same token, valued with the id they will
delete and the instant they come due).  A `resolutions` ledger records
every settle of a promise, so "resolved at most once" is observable. -/

inductive JSVal where
  | vUndefined
  | vBool (b : Bool)
  | vNum (n : Int)
  | vStr (s : String)
  deriving DecidableEq, Repr

/-- JS property read: absent properties are `undefined`. -/
def getProp (frame : List (String × JSVal)) (k : String) : JSVal :=
  match alookup k frame with
  | some v => v
  | none => .vUndefined

/-- JS truthiness for the values in our frame model. -/
def truthy : JSVal → Bool
  | .vUndefined => false
  | .vBool b => b
  | .vNum n => n ≠ 0
  | .vStr s => s ≠ ""

/-- The timeout passed to `setTimeout` in `sendWithResponse` (ms). -/
def responseTimeoutMs : Nat := 30000

inductive ResolutionKind where
  | fulfilled
  | rejectedByReply
  | rejectedTimeout
  deriving DecidableEq, Repr

structure PendState where
  pending : List (String × Nat)
  timers : List (Nat × (String × Nat))
  resolutions : List (Nat × ResolutionKind)
  fresh : Nat
  deriving DecidableEq, Repr

def emptyPend : PendState :=
  { pending := [], timers := [], resolutions := [], fresh := 0 }

/-- `sendWithResponse(message, messageId)`: arm a 30-second timer and
store the promise callbacks under the message id. -/
def sendWithResponse (st : PendState) (messageId : String) (now : Nat) : PendState :=
  { st with
    timers := ainsert st.fresh (messageId, now + responseTimeoutMs) st.timers,
    pending := ainsert messageId st.fresh st.pending,
    fresh := st.fresh + 1 }

/-- `handleResponse(response)`: destructure `messageID` and `success`,
look the id up in the pending table; when found, clear that entry's
timer, delete the entry and settle the promise by the success flag;
when not found, log and do nothing. -/
def handleResponse (st : PendState) (messageID : JSVal) (success : Bool) : PendState :=
  let key : Option String := match messageID with
    | .vStr s => some s
    | _ => none
  match key with
  | none => st
  | some id =>
      match alookup id st.pending with
      | none => st
      | some tok =>
          { st with
            timers := aerase tok st.timers,
            pending := aerase id st.pending,
            resolutions :=
              st.resolutions ++
                [(tok, if success then .fulfilled else .rejectedByReply)] }

/-- The runtime firing an armed timer: the `setTimeout` callback
deletes the pending entry for its message id and rejects its promise
with the timeout error.  A cleared (removed) timer never fires, and a
timer does not fire before it is due. -/
def fireTimeout (st : PendState) (tok : Nat) (now : Nat) : PendState :=
  match alookup tok st.timers with
  | none => st
  | some (id, due) =>
      if due ≤ now then
        { st with
          timers := aerase tok st.timers,
          pending := aerase id st.pending,
          resolutions := st.resolutions ++ [(tok, .rejectedTimeout)] }
      else st

/-- `WebSocketManager.handleMessage`: a frame is routed to
`handleResponse` exactly when its `success` property is defined and
its `messageID` property is truthy; otherwise it goes to the general
message callback. -/
inductive Route where
  | responsePath
  | callbackPath
  deriving DecidableEq, Repr

def wsHandleMessage (st : PendState) (frame : List (String × JSVal)) :
    PendState × Route :=
  if getProp frame "success" ≠ .vUndefined ∧ truthy (getProp frame "messageID") then
    (handleResponse st (getProp frame "messageID") (truthy (getProp frame "success")),
     .responsePath)
  else (st, .callbackPath)

inductive WSEvent where
  | send (messageId : String) (now : Nat)
  | reply (messageID : JSVal) (success : Bool)
  | timeout (tok : Nat) (now : Nat)
  deriving DecidableEq, Repr

def pendStep (st : PendState) : WSEvent → PendState
  | .send id now => sendWithResponse st id now
  | .reply mid success => handleResponse st mid success
  | .timeout tok now => fireTimeout st tok now

def pendRun (evs : List WSEvent) : PendState :=
  evs.foldl pendStep emptyPend

/-- The tokens (promises) that have been settled so far. -/
def resolvedToks (st : PendState) : List Nat :=
  st.resolutions.map Prod.fst

/-- Occurrence count of a token. -/
def countTok (t : Nat) : List Nat → Nat
  | [] => 0
  | x :: rest => (if x = t then 1 else 0) + countTok t rest

/-- The pending-table discipline: a settled token has neither an armed
timer nor a pending entry; no token is settled twice; every pending
entry's token owns an armed timer bound to the same message id; and
every token ever allocated is below the freshness counter. -/
def PendInv (st : PendState) : Prop :=
  (∀ t, t ∈ resolvedToks st →
    alookup t st.timers = none ∧ ∀ id, alookup id st.pending ≠ some t) ∧
  (∀ t, countTok t (resolvedToks st) ≤ 1) ∧
  (∀ id t, alookup id st.pending = some t →
    ∃ due, alookup t st.timers = some (id, due)) ∧
  (∀ t, t ∈ resolvedToks st → t < st.fresh) ∧
  (∀ t p, alookup t st.timers = some p → t < st.fresh) ∧
  (∀ id t, alookup id st.pending = some t → t < st.fresh)

/-! ## Tool registry and the bounded agent loop
(`internal/tools` and `cmd/assistant/main.go`)

JSON values exchanged with tool handlers are a small inductive
`JValue` with a `renderJ` serialiser standing in for `json.Marshal`;
`json.Unmarshal` of the argument string is an external collaborator
passed in as `parse`.  The LLM transport (`ChatWithTools`) is an
external collaborator `llm` from the conversation so far to either a
transport error or a response. -/

inductive JValue where
  | jNull
  | jBool (b : Bool)
  | jNum (n : Int)
  | jStr (s : String)
  | jObj (fields : List (String × JValue))

/-- Serialisation of a `JValue` (the model's `json.Marshal`). -/
def renderJ : JValue → String
  | .jNull => "null"
  | .jBool b => if b then "true" else "false"
  | .jNum n => toString n
  | .jStr s => "\x22" ++ s ++ "\x22"
  | .jObj fields => "\x7b" ++ renderFields fields ++ "\x7d"
where
  renderFields : List (String × JValue) → String
  | [] => ""
  | [(k, v)] => "\x22" ++ k ++ "\x22:" ++ renderJ v
  | (k, v) :: rest => "\x22" ++ k ++ "\x22:" ++ renderJ v ++ "," ++ renderFields rest

/-- `tools.Tool`: the handler is `nil`-able, as in the Go struct. -/
structure Tool where
  name : String
  description : String
  handler : Option (List (String × JValue) → Except String JValue)

structure ToolCallFunction where
  name : String
  arguments : String
  deriving DecidableEq, Repr

structure ToolCall where
  id : String
  type : String
  function : ToolCallFunction
  deriving DecidableEq, Repr

/-- `Registry.Get`: lookup by name, `tool not found` otherwise. -/
def registryGet (tools : List (String × Tool)) (name : String) : Except String Tool :=
  match alookup name tools with
  | none => .error ("tool not found: " ++ name)
  | some t => .ok t

/-- `ToolCall.ParseArguments`: `json.Unmarshal` (the external `parse`)
with the Go error wrapping. -/
def parseArguments (parse : String → Except String (List (String × JValue)))
    (tc : ToolCall) : Except String (List (String × JValue)) :=
  match parse tc.function.arguments with
  | .error e => .error ("解析参数失败: " ++ e)
  | .ok params => .ok params

/-- `Tool.Execute`: a `nil` handler is an error, otherwise run it. -/
def toolExecute (t : Tool) (params : List (String × JValue)) : Except String JValue :=
  match t.handler with
  | none => .error ("tool handler not implemented: " ++ t.name)
  | some h => h params

/-- `Registry.Execute`: get the tool, parse the arguments, execute;
each failure short-circuits with its error. -/
def registryExecute (tools : List (String × Tool))
    (parse : String → Except String (List (String × JValue)))
    (tc : ToolCall) : Except String JValue :=
  match registryGet tools tc.function.name with
  | .error e => .error e
  | .ok t =>
      match parseArguments parse tc with
      | .error e => .error e
      | .ok params => toolExecute t params

/-- `client.Message` in its tool-calling form. -/
structure LMessage where
  role : String
  content : String
  toolCalls : List ToolCall
  toolCallID : String
  deriving DecidableEq, Repr

structure LChoice where
  finishReason : String
  message : LMessage
  deriving DecidableEq, Repr

structure LOutput where
  text : String
  finishReason : String
  choices : List LChoice
  deriving DecidableEq, Repr

/-- `client.ChatResponse` (usage and request-id fields have no effect
on the loop and are omitted). -/
structure LChatResponse where
  output : LOutput
  deriving DecidableEq, Repr

/-- The guard `len(Choices) > 0 && len(Choices[0].Message.ToolCalls) > 0`. -/
def hasToolCalls (resp : LChatResponse) : Bool :=
  match resp.output.choices with
  | [] => false
  | c :: _ => !c.message.toolCalls.isEmpty

/-- The assistant message of the first choice (only read under
`hasToolCalls`). -/
def choiceMessage (resp : LChatResponse) : LMessage :=
  match resp.output.choices with
  | [] => { role := "", content := "", toolCalls := [], toolCallID := "" }
  | c :: _ => c.message

/-- The tool calls the response requests. -/
def requestedToolCalls (resp : LChatResponse) : List ToolCall :=
  (choiceMessage resp).toolCalls

/-- The final-answer extraction of the no-tool-calls branch. -/
def finalAnswer (resp : LChatResponse) : String :=
  if resp.output.text ≠ "" then resp.output.text
  else
    match resp.output.choices with
    | c :: _ => c.message.content
    | [] => "抱歉，没有获取到回答。"

/-- The apology used when the LLM transport fails. -/
def llmFailureText : String := "抱歉，处理您的请求时出错了。"

/-- `maxIterations` in `processRequest`. -/
def maxIterations : Nat := 5

/-- The tool-role conversation entry built for one requested tool
call: the `Registry.Execute` result, or on any failure the
`map[string]interface\x7b\x7d\x7b"error": err.Error()\x7d` payload, serialised
and tagged with the call id. -/
def execToolMessage (tools : List (String × Tool))
    (parse : String → Except String (List (String × JValue)))
    (tc : ToolCall) : LMessage :=
  let payload : JValue :=
    match registryExecute tools parse tc with
    | .ok v => v
    | .error e => .jObj [("error", .jStr e)]
  { role := "tool", content := renderJ payload, toolCalls := [], toolCallID := tc.id }

/-- The iteration structure of `processRequest`: each recursive step
is one pass of the `for i := 0; i < maxIterations; i++` loop, and the
returned pair is (`finalResponse`, number of `ChatWithTools` calls
made).  Every branch that assigns `finalResponse` immediately breaks
in the source, so the functional rendering returns there; exhausting
the fuel returns the never-assigned `finalResponse`, i.e. `""`. -/
def agentLoop (llm : List LMessage → Except String LChatResponse)
    (tools : List (String × Tool))
    (parse : String → Except String (List (String × JValue))) :
    Nat → List LMessage → Nat → String × Nat
  | 0, _msgs, calls => ("", calls)
  | fuel + 1, msgs, calls =>
      match llm msgs with
      | .error _ => (llmFailureText, calls + 1)
      | .ok resp =>
          if hasToolCalls resp then
            agentLoop llm tools parse fuel
              (msgs ++ choiceMessage resp ::
                (requestedToolCalls resp).map (execToolMessage tools parse))
              (calls + 1)
          else (finalAnswer resp, calls + 1)

/-- The system prompt seeded into the conversation. -/
def assistantSystemPrompt : String := "你是一个专业的电商客服助手，能够查询商品信息、订单状态、物流信息等。

你的能力：
1. 查询商品详情（名称、价格、库存、规格）
2. 查询订单状态（订单进度、支付状态、发货信息）
3. 查询物流信息（当前位置、预计送达时间）
4. 查询商品库存和配送信息

当用户询问商品、订单、物流相关问题时，请使用工具查询实际数据，然后用亲切、专业的语气回答用户。

回答要求：
1. 称呼用户为\x22亲\x22
2. 语气要友好、专业
3. 回答要简洁，不要太长
4. 适当使用emoji增加亲和力"

/-- `processRequest`'s LLM loop, from its seeded conversation. -/
def processRequestLoop (llm : List LMessage → Except String LChatResponse)
    (tools : List (String × Tool))
    (parse : String → Except String (List (String × JValue)))
    (question : String) : String × Nat :=
  agentLoop llm tools parse maxIterations
    [{ role := "system", content := assistantSystemPrompt, toolCalls := [], toolCallID := "" },
     { role := "user", content := question, toolCalls := [], toolCallID := "" }] 0

/-! ## Concrete evaluation inputs -/

def demoSession : UserSession :=
  { userID := 7, username := "用户7", conn := 3, sessionID := "s-1",
    clientIP := "127.0.0.1", lastHeartbeat := 0, missedBeats := 0 }

def demoService : SessionService :=
  { userSessions := [(7, demoSession)], sessionToUser := [("s-1", 7)], closed := [] }

def demoChat : ChatMessage :=
  { messageID := "m1", type := "CHAT", content := "hello", sender := 42,
    senderName := "", sessionID := "", timestamp := "2023-12-18T00:00:00Z" }

/-- An acknowledgement frame exactly as the gateway's outbound schema
serialises `model.ChatResponse` (JSON keys `success`, `messageId`,
`message`). -/
def serverAckFrame : List (String × JSVal) :=
  [("success", .vBool true), ("messageId", .vStr "m1"), ("message", .vStr "消息已收到，正在处理中...")]

def demoToolCall : ToolCall :=
  { id := "call-1", type := "function",
    function := { name := "get_order_detail", arguments := "\x7b\x7d" } }

/-- A response whose first choice requests one tool call. -/
def demoToolResponse : LChatResponse :=
  { output :=
    { text := "", finishReason := "",
      choices :=
        [{ finishReason := "tool_calls",
           message := { role := "assistant", content := "",
                        toolCalls := [demoToolCall], toolCallID := "" } }] } }

/-- An LLM collaborator that requests a tool on every iteration. -/
def alwaysToolLLM : List LMessage → Except String LChatResponse :=
  fun _ => .ok demoToolResponse

/-- A JSON argument parser accepting only the empty object. -/
def parseEmptyObj : String → Except String (List (String × JValue)) :=
  fun s => if s = "\x7b\x7d" then .ok [] else .error "unexpected end of JSON input"

/-! ## Registry invariant -/

/-- Mutual consistency of the dual index: every session-id key
resolves to an identity whose registered session bears that id, and
every registered session's id resolves back to that identity (which
also caps each identity at one registered session, the map's single
binding). -/
def RegistryInv (s : SessionService) : Prop :=
  (∀ sid uid, alookup sid s.sessionToUser = some uid →
    ∃ sess, alookup uid s.userSessions = some sess ∧ sess.sessionID = sid) ∧
  (∀ uid sess, alookup uid s.userSessions = some sess →
    alookup sess.sessionID s.sessionToUser = some uid)

/-- Freshness of the session id handed to `RegisterUser` (the handler
generates a new UUID per connection): no registered session bears it. -/
def FreshSessionID (s : SessionService) (sid : String) : Prop :=
  ∀ uid sess, alookup uid s.userSessions = some sess → sess.sessionID ≠ sid

/-! ## Association-list lemmas -/

@[simp] theorem alookup_nil {α β : Type} [DecidableEq α] (k : α) :
    alookup (β := β) k [] = none := rfl

theorem alookup_cons {α β : Type} [DecidableEq α] (k k' : α) (v : β) (l : List (α × β)) :
    alookup k ((k', v) :: l) = if k' = k then some v else alookup k l := rfl

@[simp] theorem alookup_aerase_self {α β : Type} [DecidableEq α] (k : α)
    (l : List (α × β)) : alookup k (aerase k l) = none := by
  induction l with
  | nil => rfl
  | cons p rest ih =>
    obtain ⟨k', v⟩ := p
    by_cases h : k' = k
    · simp [aerase, h, ih]
    · simp [aerase, h, alookup, ih]

theorem alookup_aerase_ne {α β : Type} [DecidableEq α] {k k' : α}
    (h : k' ≠ k) (l : List (α × β)) : alookup k' (aerase k l) = alookup k' l := by
  induction l with
  | nil => rfl
  | cons p rest ih =>
    obtain ⟨k'', v⟩ := p
    by_cases h2 : k'' = k
    · subst h2
      have h4 : k'' ≠ k' := fun hh => h hh.symm
      simp [aerase, alookup, h4, ih]
    · simp [aerase, h2, alookup, ih]

theorem alookup_append {α β : Type} [DecidableEq α] (k : α) (l₁ l₂ : List (α × β)) :
    alookup k (l₁ ++ l₂) =
      match alookup k l₁ with
      | some v => some v
      | none => alookup k l₂ := by
  induction l₁ with
  | nil => simp [alookup]
  | cons p rest ih =>
    obtain ⟨k', v⟩ := p
    by_cases h : k' = k
    · simp [alookup, h]
    · simp [alookup, h, ih]

@[simp] theorem alookup_ainsert_self {α β : Type} [DecidableEq α] (k : α) (v : β)
    (l : List (α × β)) : alookup k (ainsert k v l) = some v := by
  simp [ainsert, alookup_append, alookup_aerase_self, alookup]

theorem alookup_ainsert_ne {α β : Type} [DecidableEq α] {k k' : α}
    (h : k' ≠ k) (v : β) (l : List (α × β)) :
    alookup k' (ainsert k v l) = alookup k' l := by
  rw [ainsert, alookup_append, alookup_aerase_ne h]
  cases hl : alookup k' l <;> simp [alookup, Ne.symm h]

theorem aerase_of_alookup_none {α β : Type} [DecidableEq α] {k : α}
    {l : List (α × β)} (h : alookup k l = none) : aerase k l = l := by
  induction l with
  | nil => rfl
  | cons p rest ih =>
    obtain ⟨k', v⟩ := p
    by_cases h2 : k' = k
    · simp [alookup, h2] at h
    · simp [alookup, h2] at h
      simp [aerase, h2, ih h]

theorem aerase_aerase {α β : Type} [DecidableEq α] (k : α) (l : List (α × β)) :
    aerase k (aerase k l) = aerase k l :=
  aerase_of_alookup_none (alookup_aerase_self k l)

/-! ## Registry-invariant lemmas -/

theorem RegisterUser_eq_none {s : SessionService} {uid : Int} {username : String}
    {conn : Nat} {sid ip : String} {now : Nat}
    (h : alookup uid s.userSessions = none) :
    RegisterUser s uid username conn sid ip now =
      { userSessions :=
          ainsert uid ⟨uid, username, conn, sid, ip, now, 0⟩ s.userSessions,
        sessionToUser := ainsert sid uid s.sessionToUser,
        closed := s.closed } := by
  simp [RegisterUser, h]

theorem RegisterUser_eq_some {s : SessionService} {uid : Int} {username : String}
    {conn : Nat} {sid ip : String} {now : Nat} {old : UserSession}
    (h : alookup uid s.userSessions = some old) :
    RegisterUser s uid username conn sid ip now =
      { userSessions :=
          ainsert uid ⟨uid, username, conn, sid, ip, now, 0⟩ s.userSessions,
        sessionToUser := ainsert sid uid (aerase old.sessionID s.sessionToUser),
        closed := old.conn :: s.closed } := by
  simp [RegisterUser, h]

theorem registryInv_erase_entry (s : SessionService) (uid : Int) (sess : UserSession)
    (closedLedger : List Nat) (hinv : RegistryInv s)
    (h : alookup uid s.userSessions = some sess) :
    RegistryInv
      { userSessions := aerase uid s.userSessions,
        sessionToUser := aerase sess.sessionID s.sessionToUser,
        closed := closedLedger } := by
  obtain ⟨h1, h2⟩ := hinv
  constructor
  · intro sid' uid' hl
    by_cases hs : sid' = sess.sessionID
    · subst hs
      rw [alookup_aerase_self] at hl
      cases hl
    · rw [alookup_aerase_ne hs] at hl
      obtain ⟨sess', hlu, hsid⟩ := h1 sid' uid' hl
      have hne : uid' ≠ uid := by
        intro he
        subst he
        obtain rfl : sess = sess' := Option.some_inj.mp (h.symm.trans hlu)
        exact hs hsid.symm
      exact ⟨sess', by rw [alookup_aerase_ne hne]; exact hlu, hsid⟩
  · intro uid' sess' hl
    by_cases hu : uid' = uid
    · subst hu
      rw [alookup_aerase_self] at hl
      cases hl
    · rw [alookup_aerase_ne hu] at hl
      have hx := h2 uid' sess' hl
      have hne : sess'.sessionID ≠ sess.sessionID := by
        intro he
        rw [he] at hx
        exact hu (Option.some_inj.mp (hx.symm.trans (h2 uid sess h)))
      rw [alookup_aerase_ne hne]
      exact hx

theorem registryInv_update_entry (s : SessionService) (uid : Int)
    (sess sess' : UserSession) (hinv : RegistryInv s)
    (h : alookup uid s.userSessions = some sess)
    (hsid : sess'.sessionID = sess.sessionID) :
    RegistryInv { s with userSessions := ainsert uid sess' s.userSessions } := by
  obtain ⟨h1, h2⟩ := hinv
  constructor
  · intro sid'' uid'' hl
    obtain ⟨sess'', hlu, hs2⟩ := h1 sid'' uid'' hl
    by_cases hu : uid'' = uid
    · subst hu
      obtain rfl : sess = sess'' := Option.some_inj.mp (h.symm.trans hlu)
      exact ⟨sess', by rw [alookup_ainsert_self], by rw [hsid, hs2]⟩
    · exact ⟨sess'', by rw [alookup_ainsert_ne hu]; exact hlu, hs2⟩
  · intro uid'' sess'' hl
    by_cases hu : uid'' = uid
    · subst hu
      rw [alookup_ainsert_self] at hl
      obtain rfl : sess' = sess'' := Option.some_inj.mp hl
      rw [hsid]
      exact h2 _ sess h
    · rw [alookup_ainsert_ne hu] at hl
      exact h2 uid'' sess'' hl

theorem registryInv_register (s : SessionService) (uid : Int) (username : String)
    (conn : Nat) (sid ip : String) (now : Nat)
    (hinv : RegistryInv s) (hfresh : FreshSessionID s sid) :
    RegistryInv (RegisterUser s uid username conn sid ip now) := by
  cases h : alookup uid s.userSessions with
  | none =>
      rw [RegisterUser_eq_none h]
      constructor
      · intro sid' uid' hl
        by_cases hs : sid' = sid
        · subst hs
          rw [alookup_ainsert_self] at hl
          obtain rfl : uid = uid' := Option.some_inj.mp hl
          exact ⟨⟨uid, username, conn, sid', ip, now, 0⟩,
                 by rw [alookup_ainsert_self], rfl⟩
        · rw [alookup_ainsert_ne hs] at hl
          obtain ⟨sess', hlu, hs2⟩ := hinv.1 sid' uid' hl
          have hu : uid' ≠ uid := by
            intro he
            rw [he, h] at hlu
            cases hlu
          exact ⟨sess', by rw [alookup_ainsert_ne hu]; exact hlu, hs2⟩
      · intro uid' sess' hl
        by_cases hu : uid' = uid
        · subst hu
          rw [alookup_ainsert_self] at hl
          obtain rfl : (⟨uid', username, conn, sid, ip, now, 0⟩ : UserSession) = sess' :=
            Option.some_inj.mp hl
          exact alookup_ainsert_self sid uid' s.sessionToUser
        · rw [alookup_ainsert_ne hu] at hl
          have hx := hinv.2 uid' sess' hl
          have hns : sess'.sessionID ≠ sid := hfresh uid' sess' hl
          rw [alookup_ainsert_ne hns]
          exact hx
  | some old =>
      rw [RegisterUser_eq_some h]
      constructor
      · intro sid' uid' hl
        by_cases hs : sid' = sid
        · subst hs
          rw [alookup_ainsert_self] at hl
          obtain rfl : uid = uid' := Option.some_inj.mp hl
          exact ⟨⟨uid, username, conn, sid', ip, now, 0⟩,
                 by rw [alookup_ainsert_self], rfl⟩
        · rw [alookup_ainsert_ne hs] at hl
          by_cases ho : sid' = old.sessionID
          · subst ho
            rw [alookup_aerase_self] at hl
            cases hl
          · rw [alookup_aerase_ne ho] at hl
            obtain ⟨sess', hlu, hs2⟩ := hinv.1 sid' uid' hl
            have hu : uid' ≠ uid := by
              intro he
              subst he
              obtain rfl : old = sess' := Option.some_inj.mp (h.symm.trans hlu)
              exact ho hs2.symm
            exact ⟨sess', by rw [alookup_ainsert_ne hu]; exact hlu, hs2⟩
      · intro uid' sess' hl
        by_cases hu : uid' = uid
        · subst hu
          rw [alookup_ainsert_self] at hl
          obtain rfl : (⟨uid', username, conn, sid, ip, now, 0⟩ : UserSession) = sess' :=
            Option.some_inj.mp hl
          exact alookup_ainsert_self sid uid' (aerase old.sessionID s.sessionToUser)
        · rw [alookup_ainsert_ne hu] at hl
          have hx := hinv.2 uid' sess' hl
          have hns : sess'.sessionID ≠ sid := hfresh uid' sess' hl
          have hno : sess'.sessionID ≠ old.sessionID := by
            intro he
            rw [he] at hx
            exact hu (Option.some_inj.mp (hx.symm.trans (hinv.2 uid old h)))
          rw [alookup_ainsert_ne hns, alookup_aerase_ne hno]
          exact hx

theorem registryInv_removeBySid (s : SessionService) (sid : String)
    (hinv : RegistryInv s) : RegistryInv (RemoveUserBySessionID s sid) := by
  cases h : alookup sid s.sessionToUser with
  | none => simpa [RemoveUserBySessionID, h] using hinv
  | some uid =>
      obtain ⟨sess, hlu, hsid⟩ := hinv.1 sid uid h
      have he : RemoveUserBySessionID s sid =
          { userSessions := aerase uid s.userSessions,
            sessionToUser := aerase sess.sessionID s.sessionToUser,
            closed := s.closed } := by
        simp [RemoveUserBySessionID, h, hsid]
      rw [he]
      exact registryInv_erase_entry s uid sess s.closed hinv hlu

theorem registryInv_removeByID (s : SessionService) (uid : Int)
    (hinv : RegistryInv s) : RegistryInv (RemoveUserByID s uid) := by
  cases h : alookup uid s.userSessions with
  | none => simpa [RemoveUserByID, h] using hinv
  | some sess =>
      have he : RemoveUserByID s uid =
          { userSessions := aerase uid s.userSessions,
            sessionToUser := aerase sess.sessionID s.sessionToUser,
            closed := s.closed } := by
        simp [RemoveUserByID, h]
      rw [he]
      exact registryInv_erase_entry s uid sess s.closed hinv h

theorem registryInv_scan (now : Nat) (s : SessionService) (uid : Int)
    (hinv : RegistryInv s) : RegistryInv (scanSession now s uid) := by
  cases h : alookup uid s.userSessions with
  | none => simpa [scanSession, h] using hinv
  | some sess =>
      by_cases hgt : now - sess.lastHeartbeat > 60
      · cases hc : shouldBeCleaned (incrementMissedBeats sess) with
        | true =>
            have he : scanSession now s uid =
                { userSessions := aerase uid s.userSessions,
                  sessionToUser := aerase sess.sessionID s.sessionToUser,
                  closed := sess.conn :: s.closed } := by
              simp [scanSession, h, hgt, hc]
            rw [he]
            exact registryInv_erase_entry s uid sess _ hinv h
        | false =>
            have he : scanSession now s uid =
                { s with userSessions :=
                    ainsert uid (incrementMissedBeats sess) s.userSessions } := by
              simp [scanSession, h, hgt, hc]
            rw [he]
            exact registryInv_update_entry s uid sess _ hinv h rfl
      · simpa [scanSession, h, hgt] using hinv

theorem registryInv_foldScan (now : Nat) :
    ∀ (l : List Int) (s : SessionService), RegistryInv s →
      RegistryInv (l.foldl (scanSession now) s)
  | [], _, hinv => hinv
  | uid :: rest, s, hinv =>
      registryInv_foldScan now rest _ (registryInv_scan now s uid hinv)

theorem registryInv_empty : RegistryInv emptyService := by
  constructor
  · intro sid uid h
    cases h
  · intro uid sess h
    cases h

theorem alookup_singleton {α β : Type} [DecidableEq α] (k k' : α) (v : β) :
    alookup k [(k', v)] = if k' = k then some v else none := rfl

theorem registryInv_demo : RegistryInv demoService := by
  constructor
  · intro sid uid h
    simp only [demoService] at h
    rw [alookup_singleton] at h
    by_cases hs : "s-1" = sid
    · rw [if_pos hs] at h
      obtain rfl : (7 : Int) = uid := Option.some_inj.mp h
      exact ⟨demoSession, by decide, by rw [← hs]; decide⟩
    · rw [if_neg hs] at h
      cases h
  · intro uid sess h
    simp only [demoService] at h
    rw [alookup_singleton] at h
    by_cases hu : (7 : Int) = uid
    · rw [if_pos hu] at h
      obtain rfl : demoSession = sess := Option.some_inj.mp h
      rw [← hu]
      decide
    · rw [if_neg hu] at h
      cases h

theorem freshSid_demo : FreshSessionID demoService "s-2" := by
  intro uid sess h
  simp only [demoService] at h
  rw [alookup_singleton] at h
  by_cases hu : (7 : Int) = uid
  · rw [if_pos hu] at h
    obtain rfl : demoSession = sess := Option.some_inj.mp h
    decide
  · rw [if_neg hu] at h
    cases h

/-! ## Claim theorems -/

/-- C9: `RemoveUserBySessionID` and `RemoveUserByID` each remove the
matching session's entries from both indices when the key is present,
are no-ops (and no errors) on absent keys, and are idempotent. -/
theorem remove_idempotent :
    ∀ (s : SessionService) (sid : String) (uid : Int),
      (∀ userID, alookup sid s.sessionToUser = some userID →
        alookup sid (RemoveUserBySessionID s sid).sessionToUser = none ∧
        alookup userID (RemoveUserBySessionID s sid).userSessions = none) ∧
      (alookup sid s.sessionToUser = none → RemoveUserBySessionID s sid = s) ∧
      RemoveUserBySessionID (RemoveUserBySessionID s sid) sid = RemoveUserBySessionID s sid ∧
      (∀ sess, alookup uid s.userSessions = some sess →
        alookup uid (RemoveUserByID s uid).userSessions = none ∧
        alookup sess.sessionID (RemoveUserByID s uid).sessionToUser = none) ∧
      (alookup uid s.userSessions = none → RemoveUserByID s uid = s) ∧
      RemoveUserByID (RemoveUserByID s uid) uid = RemoveUserByID s uid := by
  intro s sid uid
  refine ⟨?_, ?_, ?_, ?_, ?_, ?_⟩
  · intro userID h
    simp [RemoveUserBySessionID, h]
  · intro h
    simp [RemoveUserBySessionID, h]
  · cases h : alookup sid s.sessionToUser with
    | none => simp [RemoveUserBySessionID, h]
    | some userID =>
        have h2 : alookup sid (RemoveUserBySessionID s sid).sessionToUser = none := by
          simp [RemoveUserBySessionID, h]
        rw [RemoveUserBySessionID, h2]
  · intro sess h
    simp [RemoveUserByID, h]
  · intro h
    simp [RemoveUserByID, h]
  · cases h : alookup uid s.userSessions with
    | none => simp [RemoveUserByID, h]
    | some sess =>
        have h2 : alookup uid (RemoveUserByID s uid).userSessions = none := by
          simp [RemoveUserByID, h]
        rw [RemoveUserByID, h2]

/-- Witness for C9's conditional conjuncts at a concrete registry. -/
theorem remove_idempotent_witness :
    alookup "s-1" (RemoveUserBySessionID demoService "s-1").sessionToUser = none ∧
    alookup (7 : Int) (RemoveUserBySessionID demoService "s-1").userSessions = none ∧
    RemoveUserBySessionID demoService "missing" = demoService ∧
    alookup (7 : Int) (RemoveUserByID demoService 7).userSessions = none ∧
    alookup demoSession.sessionID (RemoveUserByID demoService 7).sessionToUser = none ∧
    RemoveUserByID demoService 9 = demoService := by
  refine ⟨((remove_idempotent demoService "s-1" 7).1 7 (by decide)).1,
          ((remove_idempotent demoService "s-1" 7).1 7 (by decide)).2,
          (remove_idempotent demoService "missing" 7).2.1 (by decide),
          ((remove_idempotent demoService "s-1" 7).2.2.2.1 demoSession (by decide)).1,
          ((remove_idempotent demoService "s-1" 7).2.2.2.1 demoSession (by decide)).2,
          (remove_idempotent demoService "s-1" 9).2.2.2.2.1 (by decide)⟩

/-- C10: the liveness update returns `false` and changes nothing when
the identity has no session; otherwise it returns `true`, sets the
session's last-heartbeat to `now`, zeroes the missed-beat counter,
and modifies nothing else. -/
theorem update_heartbeat_spec :
    ∀ (s : SessionService) (uid : Int) (now : Nat),
      (alookup uid s.userSessions = none →
        ServiceUpdateHeartbeat s uid now = (false, s)) ∧
      (∀ sess, alookup uid s.userSessions = some sess →
        (ServiceUpdateHeartbeat s uid now).1 = true ∧
        alookup uid (ServiceUpdateHeartbeat s uid now).2.userSessions =
          some { sess with lastHeartbeat := now, missedBeats := 0 } ∧
        (∀ uid', uid' ≠ uid →
          alookup uid' (ServiceUpdateHeartbeat s uid now).2.userSessions =
            alookup uid' s.userSessions) ∧
        (ServiceUpdateHeartbeat s uid now).2.sessionToUser = s.sessionToUser ∧
        (ServiceUpdateHeartbeat s uid now).2.closed = s.closed) := by
  intro s uid now
  refine ⟨fun h => by simp [ServiceUpdateHeartbeat, h], ?_⟩
  intro sess h
  refine ⟨by simp [ServiceUpdateHeartbeat, h], ?_, ?_, ?_, ?_⟩
  · simp [ServiceUpdateHeartbeat, h, sessionUpdateHeartbeat]
  · intro uid' hne
    simp [ServiceUpdateHeartbeat, h, alookup_ainsert_ne hne]
  · simp [ServiceUpdateHeartbeat, h]
  · simp [ServiceUpdateHeartbeat, h]

/-- Witness for C10 at a concrete registry. -/
theorem update_heartbeat_spec_witness :
    ServiceUpdateHeartbeat demoService 9 5 = (false, demoService) ∧
    alookup (7 : Int) (ServiceUpdateHeartbeat demoService 7 5).2.userSessions =
      some { demoSession with lastHeartbeat := 5, missedBeats := 0 } := by
  refine ⟨(update_heartbeat_spec demoService 9 5).1 (by decide),
          ((update_heartbeat_spec demoService 7 5).2 demoSession (by decide)).2.1⟩

/-- C6 counterexample: with an existing session for identity `7`
whose transport handle is `3`, a failed write returns the error and
removes both index entries, but the handle is never closed — the
claim's "its handle closed" is false of `RemoveUserByID`. -/
theorem send_failure_no_close_counterexample :
    (SendMessageToUser demoService 7 false).1 = .error .writeFailed ∧
    (SendMessageToUser demoService 7 false).2.userSessions = [] ∧
    (SendMessageToUser demoService 7 false).2.sessionToUser = [] ∧
    demoSession.conn ∉ (SendMessageToUser demoService 7 false).2.closed := by
  exact ⟨rfl, by decide, by decide, by decide⟩

/-- C6 (amended): `sendTo` on an absent identity fails with
`UserOffline` leaving the state unchanged; on a write failure the
error is surfaced and the session is torn down — removed from both
indices — while the `closed` ledger is untouched (the teardown does
not close the handle). -/
theorem send_to_spec :
    ∀ (s : SessionService) (uid : Int) (writeOk : Bool),
      (alookup uid s.userSessions = none →
        SendMessageToUser s uid writeOk = (.error .userOffline, s)) ∧
      (∀ sess, alookup uid s.userSessions = some sess →
        SendMessageToUser s uid false = (.error .writeFailed, RemoveUserByID s uid) ∧
        alookup uid (SendMessageToUser s uid false).2.userSessions = none ∧
        alookup sess.sessionID (SendMessageToUser s uid false).2.sessionToUser = none ∧
        (SendMessageToUser s uid false).2.closed = s.closed) := by
  intro s uid writeOk
  refine ⟨fun h => by simp [SendMessageToUser, h], ?_⟩
  intro sess h
  refine ⟨by simp [SendMessageToUser, h], ?_, ?_, ?_⟩
  · simp [SendMessageToUser, h, RemoveUserByID]
  · simp [SendMessageToUser, h, RemoveUserByID]
  · simp [SendMessageToUser, h, RemoveUserByID]

/-- Witness for C6's amended theorem at a concrete registry. -/
theorem send_to_spec_witness :
    SendMessageToUser demoService 9 true = (.error .userOffline, demoService) ∧
    SendMessageToUser demoService 7 false =
      (.error .writeFailed, RemoveUserByID demoService 7) := by
  refine ⟨(send_to_spec demoService 9 true).1 (by decide),
          ((send_to_spec demoService 7 true).2 demoSession (by decide)).1⟩

/-- C5: for a session examined by a monitor scan — a gap of at most 60
units leaves counter and registration unchanged; a gap above 60
increments the counter and evicts (closing the handle and clearing
both indices) exactly when the incremented counter reaches the limit
3, otherwise leaving the session registered; and a heartbeat reset
read by the scan within 60 units always prevents increment and
eviction in that cycle. -/
theorem heartbeat_scan_spec :
    ∀ (now : Nat) (s : SessionService) (uid : Int) (sess : UserSession),
      alookup uid s.userSessions = some sess →
      (now - sess.lastHeartbeat ≤ 60 → scanSession now s uid = s) ∧
      (now - sess.lastHeartbeat > 60 → sess.missedBeats + 1 ≥ 3 →
        alookup uid (scanSession now s uid).userSessions = none ∧
        alookup sess.sessionID (scanSession now s uid).sessionToUser = none ∧
        sess.conn ∈ (scanSession now s uid).closed) ∧
      (now - sess.lastHeartbeat > 60 → sess.missedBeats + 1 < 3 →
        alookup uid (scanSession now s uid).userSessions =
          some (incrementMissedBeats sess) ∧
        (∀ uid', uid' ≠ uid →
          alookup uid' (scanSession now s uid).userSessions =
            alookup uid' s.userSessions) ∧
        (scanSession now s uid).sessionToUser = s.sessionToUser ∧
        (scanSession now s uid).closed = s.closed) ∧
      (∀ thb, now - thb ≤ 60 →
        scanSession now (ServiceUpdateHeartbeat s uid thb).2 uid =
          (ServiceUpdateHeartbeat s uid thb).2) := by
  intro now s uid sess h
  refine ⟨?_, ?_, ?_, ?_⟩
  · intro hle
    simp [scanSession, h, Nat.not_lt.mpr hle]
  · intro hgt hlim
    have hc : shouldBeCleaned (incrementMissedBeats sess) = true := by
      simp [shouldBeCleaned, incrementMissedBeats]
      omega
    simp [scanSession, h, hgt, hc]
  · intro hgt hlim
    have hc : shouldBeCleaned (incrementMissedBeats sess) = false := by
      simp [shouldBeCleaned, incrementMissedBeats]
      omega
    refine ⟨by simp [scanSession, h, hgt, hc], ?_, ?_, ?_⟩
    · intro uid' hne
      simp [scanSession, h, hgt, hc, alookup_ainsert_ne hne]
    · simp [scanSession, h, hgt, hc]
    · simp [scanSession, h, hgt, hc]
  · intro thb hle
    have h2 : alookup uid (ServiceUpdateHeartbeat s uid thb).2.userSessions =
        some (sessionUpdateHeartbeat sess thb) := by
      simp [ServiceUpdateHeartbeat, h]
    simp [scanSession, h2, sessionUpdateHeartbeat, Nat.not_lt.mpr hle]

/-- Witness for C5 at concrete scans. -/
theorem heartbeat_scan_spec_witness :
    scanSession 50 demoService 7 = demoService ∧
    alookup (7 : Int) (scanSession 100 demoService 7).userSessions =
      some (incrementMissedBeats demoSession) ∧
    scanSession 100 (ServiceUpdateHeartbeat demoService 7 90).2 7 =
      (ServiceUpdateHeartbeat demoService 7 90).2 := by
  refine ⟨(heartbeat_scan_spec 50 demoService 7 demoSession (by decide)).1 (by decide),
          ((heartbeat_scan_spec 100 demoService 7 demoSession (by decide)).2.2.1
            (by decide) (by decide)).1,
          (heartbeat_scan_spec 100 demoService 7 demoSession (by decide)).2.2.2
            90 (by decide)⟩

/-- C3: the dual-index consistency invariant (at most one session per
identity, every session-id key resolving to the identity whose
user-index entry bears that id, and every registered session's id
resolving back) is preserved by registration with a freshly generated
session id, by both removal operations, by a monitor scan, and by a
send-failure teardown; and registering a second session for an
identity already holding one (with a distinct fresh id) removes
exactly the prior session's two index entries — closing its handle —
before inserting the new ones. -/
theorem registry_inv_preserved :
    (∀ (s : SessionService) (uid : Int) (username : String) (conn : Nat)
        (sid ip : String) (now : Nat), RegistryInv s → FreshSessionID s sid →
      RegistryInv (RegisterUser s uid username conn sid ip now)) ∧
    (∀ (s : SessionService) (sid : String), RegistryInv s →
      RegistryInv (RemoveUserBySessionID s sid)) ∧
    (∀ (s : SessionService) (uid : Int), RegistryInv s →
      RegistryInv (RemoveUserByID s uid)) ∧
    (∀ (s : SessionService) (now : Nat), RegistryInv s →
      RegistryInv (heartbeatScan now s)) ∧
    (∀ (s : SessionService) (uid : Int) (writeOk : Bool), RegistryInv s →
      RegistryInv (SendMessageToUser s uid writeOk).2) ∧
    (∀ (s : SessionService) (uid : Int) (old : UserSession) (username : String)
        (conn : Nat) (sid ip : String) (now : Nat),
      alookup uid s.userSessions = some old → old.sessionID ≠ sid →
      alookup uid (RegisterUser s uid username conn sid ip now).userSessions =
        some ⟨uid, username, conn, sid, ip, now, 0⟩ ∧
      alookup sid (RegisterUser s uid username conn sid ip now).sessionToUser =
        some uid ∧
      alookup old.sessionID
        (RegisterUser s uid username conn sid ip now).sessionToUser = none ∧
      (∀ uid', uid' ≠ uid →
        alookup uid' (RegisterUser s uid username conn sid ip now).userSessions =
          alookup uid' s.userSessions) ∧
      (∀ sid', sid' ≠ sid → sid' ≠ old.sessionID →
        alookup sid' (RegisterUser s uid username conn sid ip now).sessionToUser =
          alookup sid' s.sessionToUser) ∧
      old.conn ∈ (RegisterUser s uid username conn sid ip now).closed) := by
  refine ⟨registryInv_register, registryInv_removeBySid, registryInv_removeByID,
          fun s now hinv => registryInv_foldScan now _ s hinv, ?_, ?_⟩
  · intro s uid writeOk hinv
    cases h : alookup uid s.userSessions with
    | none => simpa [SendMessageToUser, h] using hinv
    | some sess =>
        cases writeOk with
        | true => simpa [SendMessageToUser, h] using hinv
        | false =>
            simpa [SendMessageToUser, h] using registryInv_removeByID s uid hinv
  · intro s uid old username conn sid ip now h hne
    rw [RegisterUser_eq_some h]
    refine ⟨by rw [alookup_ainsert_self], by rw [alookup_ainsert_self], ?_, ?_, ?_, ?_⟩
    · rw [alookup_ainsert_ne hne, alookup_aerase_self]
    · intro uid' hu
      rw [alookup_ainsert_ne hu]
    · intro sid' hs ho
      rw [alookup_ainsert_ne hs, alookup_aerase_ne ho]
    · exact List.mem_cons_self _ _

/-- Witness for C3 at a concrete registry: the invariant survives a
fresh registration that evicts the demo session, and the eviction is
exact. -/
theorem registry_inv_preserved_witness :
    RegistryInv (RegisterUser demoService 7 "用户7" 4 "s-2" "127.0.0.1" 10) ∧
    RegistryInv (RemoveUserBySessionID demoService "s-1") ∧
    alookup "s-1" (RegisterUser demoService 7 "用户7" 4 "s-2" "127.0.0.1" 10).sessionToUser
      = none ∧
    demoSession.conn ∈ (RegisterUser demoService 7 "用户7" 4 "s-2" "127.0.0.1" 10).closed := by
  refine ⟨registry_inv_preserved.1 demoService 7 "用户7" 4 "s-2" "127.0.0.1" 10
            registryInv_demo freshSid_demo,
          registry_inv_preserved.2.1 demoService "s-1" registryInv_demo, ?_, ?_⟩
  · have hx := (registry_inv_preserved.2.2.2.2.2 demoService 7 demoSession "用户7" 4
      "s-2" "127.0.0.1" 10 (by decide) (by decide)).2.2.1
    simpa using hx
  · exact (registry_inv_preserved.2.2.2.2.2 demoService 7 demoSession "用户7" 4
      "s-2" "127.0.0.1" 10 (by decide) (by decide)).2.2.2.2.2

/-- C7: the router, per inbound message kind — `CHAT` enqueues the
classification job and in the same step writes an acknowledgement
`{success: true, messageId: <inbound id>, message: <fixed text>}` to
the sender's connection, and what it writes is independent of the
message content handed to the classification job; `HEARTBEAT` updates
the sender's liveness and writes nothing; any other kind is dropped
with no response, no error and no state change. -/
theorem router_dispatch_spec :
    ∀ (st : IMState) (uid : Int) (msg : ChatMessage) (now : Nat),
      (msg.type = "CHAT" →
        (∀ sess, alookup uid st.svc.userSessions = some sess →
          routerHandleMessage st uid msg now true =
            ({ svc := st.svc, jobs := st.jobs ++ [(uid, msg.content)] },
             [(uid, { success := true, messageID := msg.messageID,
                      message := chatAckText })])) ∧
        (routerHandleMessage st uid msg now true).1.jobs =
          st.jobs ++ [(uid, msg.content)] ∧
        (∀ c, (routerHandleMessage st uid { msg with content := c } now true).2 =
          (routerHandleMessage st uid msg now true).2)) ∧
      (msg.type = "HEARTBEAT" →
        routerHandleMessage st uid msg now true =
          ({ svc := (ServiceUpdateHeartbeat st.svc uid now).2, jobs := st.jobs }, [])) ∧
      (msg.type ≠ "CHAT" → msg.type ≠ "HEARTBEAT" →
        routerHandleMessage st uid msg now true = (st, [])) := by
  intro st uid msg now
  refine ⟨?_, ?_, ?_⟩
  · intro hchat
    refine ⟨?_, ?_, ?_⟩
    · intro sess hsess
      simp [routerHandleMessage, hchat, SendMessageToUser, hsess]
    · cases h : alookup uid st.svc.userSessions with
      | none => simp [routerHandleMessage, hchat, SendMessageToUser, h]
      | some sess => simp [routerHandleMessage, hchat, SendMessageToUser, h]
    · intro c
      cases h : alookup uid st.svc.userSessions with
      | none => simp [routerHandleMessage, hchat, SendMessageToUser, h]
      | some sess => simp [routerHandleMessage, hchat, SendMessageToUser, h]
  · intro hhb
    have hnc : msg.type ≠ "CHAT" := by rw [hhb]; decide
    simp [routerHandleMessage, hnc, hhb]
  · intro hnc hnh
    simp [routerHandleMessage, hnc, hnh]

/-- Witness for C7 at a concrete chat message, heartbeat, and unknown
kind. -/
theorem router_dispatch_spec_witness :
    routerHandleMessage { svc := demoService, jobs := [] } 7 demoChat 0 true =
      ({ svc := demoService, jobs := [(7, "hello")] },
       [(7, { success := true, messageID := "m1", message := chatAckText })]) ∧
    routerHandleMessage { svc := demoService, jobs := [] } 7
        { demoChat with type := "HEARTBEAT" } 5 true =
      ({ svc := (ServiceUpdateHeartbeat demoService 7 5).2, jobs := [] }, []) ∧
    routerHandleMessage { svc := demoService, jobs := [] } 7
        { demoChat with type := "AI_RESPONSE" } 0 true =
      ({ svc := demoService, jobs := [] }, []) := by
  refine ⟨?_, ?_, ?_⟩
  · have hx := ((router_dispatch_spec { svc := demoService, jobs := [] } 7 demoChat 0).1
      (by decide)).1 demoSession (by decide)
    simpa [demoChat] using hx
  · exact (router_dispatch_spec { svc := demoService, jobs := [] } 7
      { demoChat with type := "HEARTBEAT" } 5).2.1 (by decide)
  · exact (router_dispatch_spec { svc := demoService, jobs := [] } 7
      { demoChat with type := "AI_RESPONSE" } 0).2.2 (by decide) (by decide)

/-! ## Pending-table lemmas -/

theorem alookup_ainsert_cases {α β : Type} [DecidableEq α] {k k' : α} {v w : β}
    {l : List (α × β)} (h : alookup k (ainsert k' v l) = some w) :
    (k = k' ∧ w = v) ∨ (k ≠ k' ∧ alookup k l = some w) := by
  by_cases he : k = k'
  · subst he
    rw [alookup_ainsert_self] at h
    exact .inl ⟨rfl, (Option.some_inj.mp h).symm⟩
  · rw [alookup_ainsert_ne he] at h
    exact .inr ⟨he, h⟩

theorem alookup_aerase_cases {α β : Type} [DecidableEq α] {k k' : α} {v : β}
    {l : List (α × β)} (h : alookup k (aerase k' l) = some v) :
    k ≠ k' ∧ alookup k l = some v := by
  by_cases he : k = k'
  · subst he
    rw [alookup_aerase_self] at h
    cases h
  · rw [alookup_aerase_ne he] at h
    exact ⟨he, h⟩

theorem countTok_append (t : Nat) (l₁ l₂ : List Nat) :
    countTok t (l₁ ++ l₂) = countTok t l₁ + countTok t l₂ := by
  induction l₁ with
  | nil => simp [countTok]
  | cons x rest ih => simp [countTok, ih]; omega

theorem countTok_eq_zero_of_not_mem {t : Nat} {l : List Nat} (h : t ∉ l) :
    countTok t l = 0 := by
  induction l with
  | nil => rfl
  | cons x rest ih =>
      have hx : x ≠ t := fun he => h (he ▸ List.mem_cons_self x rest)
      have hr : t ∉ rest := fun hm => h (List.mem_cons_of_mem x hm)
      simp [countTok, hx, ih hr]

theorem one_le_countTok_of_mem {t : Nat} {l : List Nat} (h : t ∈ l) :
    1 ≤ countTok t l := by
  induction l with
  | nil => cases h
  | cons x rest ih =>
      have key : countTok t (x :: rest) =
          (if x = t then 1 else 0) + countTok t rest := rfl
      rcases List.mem_cons.mp h with rfl | hm
      · rw [if_pos rfl] at key
        omega
      · have h1 := ih hm
        omega

theorem pair_eq_of_countTok_le_one {l : List (Nat × ResolutionKind)}
    {t : Nat} {k1 k2 : ResolutionKind}
    (hcount : countTok t (l.map Prod.fst) ≤ 1)
    (h1 : (t, k1) ∈ l) (h2 : (t, k2) ∈ l) : k1 = k2 := by
  induction l with
  | nil => cases h1
  | cons p rest ih =>
      have key : countTok t ((p :: rest).map Prod.fst) =
          (if p.1 = t then 1 else 0) + countTok t (rest.map Prod.fst) := rfl
      rcases List.mem_cons.mp h1 with he1 | hm1
      · rcases List.mem_cons.mp h2 with he2 | hm2
        · have hpq : (t, k1) = (t, k2) := he1.trans he2.symm
          exact (Prod.ext_iff.mp hpq).2
        · exfalso
          have hp : p.1 = t := by rw [← he1]
          rw [hp, if_pos rfl] at key
          have hone : 1 ≤ countTok t (rest.map Prod.fst) :=
            one_le_countTok_of_mem (List.mem_map_of_mem Prod.fst hm2)
          omega
      · rcases List.mem_cons.mp h2 with he2 | hm2
        · exfalso
          have hp : p.1 = t := by rw [← he2]
          rw [hp, if_pos rfl] at key
          have hone : 1 ≤ countTok t (rest.map Prod.fst) :=
            one_le_countTok_of_mem (List.mem_map_of_mem Prod.fst hm1)
          omega
        · refine ih ?_ hm1 hm2
          omega

theorem handleResponse_nonstr (st : PendState) (mid : JSVal) (success : Bool)
    (h : ∀ s0 : String, mid ≠ .vStr s0) :
    handleResponse st mid success = st := by
  cases mid with
  | vStr s0 => exact absurd rfl (h s0)
  | vUndefined => rfl
  | vBool b => rfl
  | vNum n => rfl

theorem handleResponse_none (st : PendState) (id : String) (success : Bool)
    (h : alookup id st.pending = none) :
    handleResponse st (.vStr id) success = st := by
  simp [handleResponse, h]

theorem handleResponse_found (st : PendState) (id : String) (success : Bool)
    (t0 : Nat) (h : alookup id st.pending = some t0) :
    handleResponse st (.vStr id) success =
      { st with
        timers := aerase t0 st.timers,
        pending := aerase id st.pending,
        resolutions := st.resolutions ++
          [(t0, if success then .fulfilled else .rejectedByReply)] } := by
  simp [handleResponse, h]

theorem fireTimeout_found (st : PendState) (t0 : Nat) (id : String) (due now : Nat)
    (h : alookup t0 st.timers = some (id, due)) (hdue : due ≤ now) :
    fireTimeout st t0 now =
      { st with
        timers := aerase t0 st.timers,
        pending := aerase id st.pending,
        resolutions := st.resolutions ++ [(t0, .rejectedTimeout)] } := by
  simp [fireTimeout, h, hdue]

theorem pendInv_send (st : PendState) (id : String) (now : Nat)
    (hinv : PendInv st) : PendInv (sendWithResponse st id now) := by
  obtain ⟨ha, hb, hc, hd, he, hf⟩ := hinv
  unfold PendInv sendWithResponse resolvedToks
  dsimp only
  refine ⟨?_, ?_, ?_, ?_, ?_, ?_⟩
  · intro t ht
    have hlt : t < st.fresh := hd t ht
    refine ⟨?_, ?_⟩
    · rw [alookup_ainsert_ne (Nat.ne_of_lt hlt)]
      exact (ha t ht).1
    · intro id2 hcontra
      rcases alookup_ainsert_cases hcontra with ⟨_, h2⟩ | ⟨_, h2⟩
      · exact absurd h2 (Nat.ne_of_lt hlt)
      · exact (ha t ht).2 id2 h2
  · intro t
    exact hb t
  · intro id2 t hl
    rcases alookup_ainsert_cases hl with ⟨h1, h2⟩ | ⟨h1, h2⟩
    · subst h1
      subst h2
      exact ⟨now + responseTimeoutMs, by rw [alookup_ainsert_self]⟩
    · obtain ⟨due, hdue⟩ := hc id2 t h2
      have hlt : t < st.fresh := hf id2 t h2
      exact ⟨due, by rw [alookup_ainsert_ne (Nat.ne_of_lt hlt)]; exact hdue⟩
  · intro t ht
    exact Nat.lt_succ_of_lt (hd t ht)
  · intro t p hl
    rcases alookup_ainsert_cases hl with ⟨h1, _⟩ | ⟨_, h2⟩
    · subst h1
      exact Nat.lt_succ_self _
    · exact Nat.lt_succ_of_lt (he t p h2)
  · intro id2 t hl
    rcases alookup_ainsert_cases hl with ⟨_, h2⟩ | ⟨_, h2⟩
    · subst h2
      exact Nat.lt_succ_self _
    · exact Nat.lt_succ_of_lt (hf id2 t h2)

theorem pendInv_reply (st : PendState) (mid : JSVal) (success : Bool)
    (hinv : PendInv st) : PendInv (handleResponse st mid success) := by
  obtain ⟨ha, hb, hc, hd, he, hf⟩ := hinv
  cases mid with
  | vUndefined => exact ⟨ha, hb, hc, hd, he, hf⟩
  | vBool b => exact ⟨ha, hb, hc, hd, he, hf⟩
  | vNum n => exact ⟨ha, hb, hc, hd, he, hf⟩
  | vStr id =>
      cases hl : alookup id st.pending with
      | none =>
          rw [handleResponse_none st id success hl]
          exact ⟨ha, hb, hc, hd, he, hf⟩
      | some t0 =>
          rw [handleResponse_found st id success t0 hl]
          have ht0new : t0 ∉ List.map Prod.fst st.resolutions := by
            intro hmem
            exact (ha t0 hmem).2 id hl
          unfold PendInv resolvedToks
          dsimp only
          rw [List.map_append]
          dsimp only [List.map_cons, List.map_nil]
          refine ⟨?_, ?_, ?_, ?_, ?_, ?_⟩
          · intro t ht
            rcases List.mem_append.mp ht with hmem | hmem
            · have hat := ha t hmem
              refine ⟨?_, ?_⟩
              · by_cases ht0 : t = t0
                · subst ht0
                  rw [alookup_aerase_self]
                · rw [alookup_aerase_ne ht0]
                  exact hat.1
              · intro id2 hcon
                obtain ⟨_, hcon'⟩ := alookup_aerase_cases hcon
                exact hat.2 id2 hcon'
            · obtain rfl : t = t0 := List.mem_singleton.mp hmem
              refine ⟨by rw [alookup_aerase_self], ?_⟩
              intro id2 hcon
              obtain ⟨hne2, hcon'⟩ := alookup_aerase_cases hcon
              obtain ⟨due, hdue⟩ := hc id2 t hcon'
              obtain ⟨due', hdue'⟩ := hc id t hl
              have hpair : (id2, due) = (id, due') :=
                Option.some_inj.mp (hdue.symm.trans hdue')
              exact hne2 (congrArg Prod.fst hpair)
          · intro t
            rw [countTok_append]
            have hone : countTok t [t0] = if t0 = t then 1 else 0 := by
              simp [countTok]
            by_cases ht0 : t0 = t
            · subst ht0
              have hz : countTok t0 (List.map Prod.fst st.resolutions) = 0 :=
                countTok_eq_zero_of_not_mem ht0new
              rw [hone, if_pos rfl, hz]
            · have hbt : countTok t (List.map Prod.fst st.resolutions) ≤ 1 := hb t
              rw [hone, if_neg ht0]
              omega
          · intro id2 t hcon
            obtain ⟨hne2, hcon'⟩ := alookup_aerase_cases hcon
            obtain ⟨due, hdue⟩ := hc id2 t hcon'
            have ht0 : t ≠ t0 := by
              intro he0
              subst he0
              obtain ⟨due', hdue'⟩ := hc id t hl
              exact hne2 (congrArg Prod.fst (Option.some_inj.mp (hdue.symm.trans hdue')))
            exact ⟨due, by rw [alookup_aerase_ne ht0]; exact hdue⟩
          · intro t ht
            rcases List.mem_append.mp ht with hmem | hmem
            · exact hd t hmem
            · obtain rfl : t = t0 := List.mem_singleton.mp hmem
              exact hf id t hl
          · intro t p hcon
            obtain ⟨_, hcon'⟩ := alookup_aerase_cases hcon
            exact he t p hcon'
          · intro id2 t hcon
            obtain ⟨_, hcon'⟩ := alookup_aerase_cases hcon
            exact hf id2 t hcon'

theorem pendInv_fire (st : PendState) (tok now : Nat)
    (hinv : PendInv st) : PendInv (fireTimeout st tok now) := by
  obtain ⟨ha, hb, hc, hd, he, hf⟩ := hinv
  cases hl : alookup tok st.timers with
  | none =>
      have hstep : fireTimeout st tok now = st := by
        simp [fireTimeout, hl]
      rw [hstep]
      exact ⟨ha, hb, hc, hd, he, hf⟩
  | some p =>
      obtain ⟨id, due⟩ := p
      by_cases hdue : due ≤ now
      · rw [fireTimeout_found st tok id due now hl hdue]
        have htoknew : tok ∉ List.map Prod.fst st.resolutions := by
          intro hmem
          rw [(ha tok hmem).1] at hl
          cases hl
        unfold PendInv resolvedToks
        dsimp only
        rw [List.map_append]
        dsimp only [List.map_cons, List.map_nil]
        refine ⟨?_, ?_, ?_, ?_, ?_, ?_⟩
        · intro t ht
          rcases List.mem_append.mp ht with hmem | hmem
          · have hat := ha t hmem
            refine ⟨?_, ?_⟩
            · by_cases ht0 : t = tok
              · subst ht0
                rw [alookup_aerase_self]
              · rw [alookup_aerase_ne ht0]
                exact hat.1
            · intro id2 hcon
              obtain ⟨_, hcon'⟩ := alookup_aerase_cases hcon
              exact hat.2 id2 hcon'
          · obtain rfl : t = tok := List.mem_singleton.mp hmem
            refine ⟨by rw [alookup_aerase_self], ?_⟩
            intro id2 hcon
            obtain ⟨hne2, hcon'⟩ := alookup_aerase_cases hcon
            obtain ⟨due2, hdue2⟩ := hc id2 t hcon'
            have hpair : (id2, due2) = (id, due) :=
              Option.some_inj.mp (hdue2.symm.trans hl)
            exact hne2 (congrArg Prod.fst hpair)
        · intro t
          rw [countTok_append]
          have hone : countTok t [tok] = if tok = t then 1 else 0 := by
            simp [countTok]
          by_cases ht0 : tok = t
          · subst ht0
            have hz : countTok tok (List.map Prod.fst st.resolutions) = 0 :=
              countTok_eq_zero_of_not_mem htoknew
            rw [hone, if_pos rfl, hz]
          · have hbt : countTok t (List.map Prod.fst st.resolutions) ≤ 1 := hb t
            rw [hone, if_neg ht0]
            omega
        · intro id2 t hcon
          obtain ⟨hne2, hcon'⟩ := alookup_aerase_cases hcon
          obtain ⟨due2, hdue2⟩ := hc id2 t hcon'
          have ht0 : t ≠ tok := by
            intro he0
            subst he0
            exact hne2 (congrArg Prod.fst (Option.some_inj.mp (hdue2.symm.trans hl)))
          exact ⟨due2, by rw [alookup_aerase_ne ht0]; exact hdue2⟩
        · intro t ht
          rcases List.mem_append.mp ht with hmem | hmem
          · exact hd t hmem
          · obtain rfl : t = tok := List.mem_singleton.mp hmem
            exact he t (id, due) hl
        · intro t p hcon
          obtain ⟨_, hcon'⟩ := alookup_aerase_cases hcon
          exact he t p hcon'
        · intro id2 t hcon
          obtain ⟨_, hcon'⟩ := alookup_aerase_cases hcon
          exact hf id2 t hcon'
      · have hstep : fireTimeout st tok now = st := by
          simp [fireTimeout, hl, hdue]
        rw [hstep]
        exact ⟨ha, hb, hc, hd, he, hf⟩

theorem pendInv_step (st : PendState) (ev : WSEvent) (hinv : PendInv st) :
    PendInv (pendStep st ev) := by
  cases ev with
  | send id now => exact pendInv_send st id now hinv
  | reply mid success => exact pendInv_reply st mid success hinv
  | timeout tok now => exact pendInv_fire st tok now hinv

theorem pendInv_empty : PendInv emptyPend := by
  refine ⟨?_, ?_, ?_, ?_, ?_, ?_⟩
  · intro t ht
    cases ht
  · intro t
    exact Nat.zero_le 1
  · intro id t hl
    cases hl
  · intro t ht
    cases ht
  · intro t p hl
    cases hl
  · intro id t hl
    cases hl

theorem pendInv_fold :
    ∀ (evs : List WSEvent) (st : PendState), PendInv st →
      PendInv (evs.foldl pendStep st)
  | [], _, hinv => hinv
  | ev :: rest, st, hinv => pendInv_fold rest _ (pendInv_step st ev hinv)

theorem pendInv_run (evs : List WSEvent) : PendInv (pendRun evs) :=
  pendInv_fold evs emptyPend pendInv_empty

/-- C4: along any interleaving of sends, replies and timer firings,
every pending request is settled at most once — a token never carries
two resolutions, so reply- and timeout-resolution are mutually
exclusive; each resolving path removes the entry (and the reply path
clears the timer) in the same step; and a reply whose correlation id
has no pending entry — a late reply in particular — is a no-op, not
an error. -/
theorem pending_resolved_once :
    (∀ (evs : List WSEvent) (t : Nat),
      countTok t (resolvedToks (pendRun evs)) ≤ 1) ∧
    (∀ (evs : List WSEvent) (t : Nat) (k1 k2 : ResolutionKind),
      (t, k1) ∈ (pendRun evs).resolutions →
      (t, k2) ∈ (pendRun evs).resolutions → k1 = k2) ∧
    (∀ (st : PendState) (id : String) (success : Bool),
      alookup id st.pending = none →
      handleResponse st (.vStr id) success = st) ∧
    (∀ (st : PendState) (mid : JSVal) (success : Bool),
      (∀ s0 : String, mid ≠ .vStr s0) →
      handleResponse st mid success = st) ∧
    (∀ (st : PendState) (id : String) (t0 : Nat) (success : Bool),
      alookup id st.pending = some t0 →
      alookup id (handleResponse st (.vStr id) success).pending = none ∧
      alookup t0 (handleResponse st (.vStr id) success).timers = none ∧
      (handleResponse st (.vStr id) success).resolutions =
        st.resolutions ++
          [(t0, if success then .fulfilled else .rejectedByReply)]) ∧
    (∀ (st : PendState) (t0 : Nat) (id : String) (due now : Nat),
      alookup t0 st.timers = some (id, due) → due ≤ now →
      alookup id (fireTimeout st t0 now).pending = none ∧
      alookup t0 (fireTimeout st t0 now).timers = none ∧
      (fireTimeout st t0 now).resolutions =
        st.resolutions ++ [(t0, .rejectedTimeout)]) := by
  refine ⟨?_, ?_, handleResponse_none, handleResponse_nonstr, ?_, ?_⟩
  · intro evs t
    exact (pendInv_run evs).2.1 t
  · intro evs t k1 k2 h1 h2
    exact pair_eq_of_countTok_le_one ((pendInv_run evs).2.1 t) h1 h2
  · intro st id t0 success h
    rw [handleResponse_found st id success t0 h]
    exact ⟨alookup_aerase_self id st.pending, alookup_aerase_self t0 st.timers, rfl⟩
  · intro st t0 id due now h hdue
    rw [fireTimeout_found st t0 id due now h hdue]
    exact ⟨alookup_aerase_self id st.pending, alookup_aerase_self t0 st.timers, rfl⟩

/-- Witness for C4: a request sent at time 0 with the 30000 ms timer,
the timer firing at 30000, and the matching reply arriving only
afterwards — the timeout resolved the promise, and the late reply
finds no entry and changes nothing. -/
theorem pending_resolved_once_witness :
    countTok 0 (resolvedToks
      (pendRun [.send "x" 0, .timeout 0 30000, .reply (.vStr "x") true])) ≤ 1 ∧
    (pendRun [.send "x" 0, .timeout 0 30000]).resolutions =
      [(0, .rejectedTimeout)] ∧
    handleResponse (pendRun [.send "x" 0, .timeout 0 30000]) (.vStr "x") true =
      pendRun [.send "x" 0, .timeout 0 30000] ∧
    alookup "x" (handleResponse (pendRun [.send "x" 0]) (.vStr "x") true).pending
      = none ∧
    alookup "x" (fireTimeout (pendRun [.send "x" 0]) 0 30000).pending = none := by
  refine ⟨pending_resolved_once.1 [.send "x" 0, .timeout 0 30000, .reply (.vStr "x") true] 0,
          by decide,
          pending_resolved_once.2.2.1 (pendRun [.send "x" 0, .timeout 0 30000])
            "x" true (by decide),
          (pending_resolved_once.2.2.2.2.1 (pendRun [.send "x" 0]) "x" 0 true
            (by decide)).1,
          (pending_resolved_once.2.2.2.2.2 (pendRun [.send "x" 0]) 0 "x"
            (0 + responseTimeoutMs) 30000 (by decide) (by decide)).1⟩

/-- C1 (code bug): the browser client tests and destructures the
property `messageID`, but an acknowledgement frame of the gateway's
outbound schema carries the JSON key `messageId`, so the frame is not
recognised as a response: it is routed to the general message
callback, the pending entry for `"m1"` survives untouched, and no
promise is settled — contradicting the claim (and the server schema)
that a matching ack resolves the pending entry. -/
theorem ack_schema_mismatch_eval :
    getProp serverAckFrame "messageID" = .vUndefined ∧
    wsHandleMessage (pendRun [.send "m1" 0]) serverAckFrame =
      (pendRun [.send "m1" 0], .callbackPath) ∧
    alookup "m1" (pendRun [.send "m1" 0]).pending = some 0 ∧
    (wsHandleMessage (pendRun [.send "m1" 0]) serverAckFrame).1.resolutions = [] ∧
    alookup "m1"
      (wsHandleMessage (pendRun [.send "m1" 0]) serverAckFrame).1.pending = some 0 := by
  refine ⟨by decide, by decide, by decide, by decide, by decide⟩

/-! ## Agent-loop lemmas -/

theorem agentLoop_all_tools (llm : List LMessage → Except String LChatResponse)
    (tools : List (String × Tool))
    (parse : String → Except String (List (String × JValue)))
    (hllm : ∀ msgs, ∃ resp, llm msgs = .ok resp ∧ hasToolCalls resp = true) :
    ∀ (fuel : Nat) (msgs : List LMessage) (calls : Nat),
      agentLoop llm tools parse fuel msgs calls = ("", calls + fuel) := by
  intro fuel
  induction fuel with
  | zero =>
      intro msgs calls
      rfl
  | succ n ih =>
      intro msgs calls
      obtain ⟨resp, hok, htools⟩ := hllm msgs
      simp only [agentLoop, hok, htools, if_true]
      rw [ih]
      have harith : calls + 1 + n = calls + (n + 1) := by omega
      rw [harith]

theorem agentLoop_calls_le (llm : List LMessage → Except String LChatResponse)
    (tools : List (String × Tool))
    (parse : String → Except String (List (String × JValue))) :
    ∀ (fuel : Nat) (msgs : List LMessage) (calls : Nat),
      (agentLoop llm tools parse fuel msgs calls).2 ≤ calls + fuel := by
  intro fuel
  induction fuel with
  | zero =>
      intro msgs calls
      exact Nat.le_refl _
  | succ n ih =>
      intro msgs calls
      cases hok : llm msgs with
      | error e =>
          simp only [agentLoop, hok]
          omega
      | ok resp =>
          cases htools : hasToolCalls resp with
          | true =>
              simp only [agentLoop, hok, htools, if_true]
              have := ih (msgs ++ choiceMessage resp ::
                (requestedToolCalls resp).map (execToolMessage tools parse)) (calls + 1)
              omega
          | false =>
              simp only [agentLoop, hok, htools, Bool.false_eq_true, if_false]
              omega

/-- C2 counterexample: against an LLM collaborator that requests a
tool call on every iteration, the loop makes exactly 5 reasoning
calls and returns the empty string — the zero value of
`finalResponse` — which is neither of the fallback/apology strings
the program contains. -/
theorem budget_exhaustion_counterexample :
    processRequestLoop alwaysToolLLM [] parseEmptyObj "查订单" = ("", 5) ∧
    ("" : String) ≠ llmFailureText ∧
    ("" : String) ≠ "抱歉，没有获取到回答。" := by
  refine ⟨?_, by decide, by decide⟩
  have h := agentLoop_all_tools alwaysToolLLM [] parseEmptyObj
    (fun _msgs => ⟨demoToolResponse, rfl, by decide⟩) 5
    [{ role := "system", content := assistantSystemPrompt, toolCalls := [], toolCallID := "" },
     { role := "user", content := "查订单", toolCalls := [], toolCallID := "" }] 0
  simpa [processRequestLoop, maxIterations] using h

/-- C2 (amended): if the reasoning collaborator returns tool calls on
every iteration, the loop performs at most 5 reasoning iterations — a
6th call never occurs for any collaborator — and terminates with the
empty string (the never-assigned `finalResponse`) as its output, not
with the apology/fallback string. -/
theorem budget_exhaustion_spec :
    (∀ (llm : List LMessage → Except String LChatResponse)
        (tools : List (String × Tool))
        (parse : String → Except String (List (String × JValue)))
        (question : String),
      (processRequestLoop llm tools parse question).2 ≤ 5) ∧
    (∀ (llm : List LMessage → Except String LChatResponse)
        (tools : List (String × Tool))
        (parse : String → Except String (List (String × JValue)))
        (question : String),
      (∀ msgs, ∃ resp, llm msgs = .ok resp ∧ hasToolCalls resp = true) →
      processRequestLoop llm tools parse question = ("", 5)) := by
  constructor
  · intro llm tools parse question
    have h := agentLoop_calls_le llm tools parse 5
      [{ role := "system", content := assistantSystemPrompt, toolCalls := [], toolCallID := "" },
       { role := "user", content := question, toolCalls := [], toolCallID := "" }] 0
    simpa [processRequestLoop, maxIterations] using h
  · intro llm tools parse question hllm
    have h := agentLoop_all_tools llm tools parse hllm 5
      [{ role := "system", content := assistantSystemPrompt, toolCalls := [], toolCallID := "" },
       { role := "user", content := question, toolCalls := [], toolCallID := "" }] 0
    simpa [processRequestLoop, maxIterations] using h

/-- Witness for C2's amended theorem at the always-tool collaborator. -/
theorem budget_exhaustion_spec_witness :
    (processRequestLoop alwaysToolLLM [] parseEmptyObj "查订单").2 ≤ 5 ∧
    processRequestLoop alwaysToolLLM [] parseEmptyObj "查订单" = ("", 5) :=
  ⟨budget_exhaustion_spec.1 alwaysToolLLM [] parseEmptyObj "查订单",
   budget_exhaustion_spec.2 alwaysToolLLM [] parseEmptyObj "查订单"
     (fun _msgs => ⟨demoToolResponse, rfl, by decide⟩)⟩

/-- C8: every failing requested tool call — unknown tool name, an
argument string the parser rejects, or an erroring (or missing)
handler — yields a tool-role conversation entry whose content is the
serialised error payload tagged with that call id instead of a
propagated failure, and a response carrying tool calls always sends
the loop into the next reasoning iteration with those entries
appended — it never terminates the loop. -/
theorem tool_failure_absorbed :
    (∀ tools parse (tc : ToolCall),
      alookup tc.function.name tools = none →
      registryExecute tools parse tc =
        .error ("tool not found: " ++ tc.function.name)) ∧
    (∀ tools parse (tc : ToolCall) (t : Tool) (e : String),
      alookup tc.function.name tools = some t →
      parse tc.function.arguments = .error e →
      registryExecute tools parse tc = .error ("解析参数失败: " ++ e)) ∧
    (∀ tools parse (tc : ToolCall) (t : Tool) params (e : String),
      alookup tc.function.name tools = some t →
      parse tc.function.arguments = .ok params →
      toolExecute t params = .error e →
      registryExecute tools parse tc = .error e) ∧
    (∀ tools parse (tc : ToolCall) (e : String),
      registryExecute tools parse tc = .error e →
      execToolMessage tools parse tc =
        { role := "tool", content := renderJ (.jObj [("error", .jStr e)]),
          toolCalls := [], toolCallID := tc.id }) ∧
    (∀ (llm : List LMessage → Except String LChatResponse) tools parse
        (fuel : Nat) (msgs : List LMessage) (calls : Nat) (resp : LChatResponse),
      llm msgs = .ok resp → hasToolCalls resp = true →
      agentLoop llm tools parse (fuel + 1) msgs calls =
        agentLoop llm tools parse fuel
          (msgs ++ choiceMessage resp ::
            (requestedToolCalls resp).map (execToolMessage tools parse))
          (calls + 1)) := by
  refine ⟨?_, ?_, ?_, ?_, ?_⟩
  · intro tools parse tc h
    simp [registryExecute, registryGet, h]
  · intro tools parse tc t e h1 h2
    simp [registryExecute, registryGet, parseArguments, h1, h2]
  · intro tools parse tc t params e h1 h2 h3
    simp [registryExecute, registryGet, parseArguments, h1, h2, h3]
  · intro tools parse tc e h
    simp [execToolMessage, h]
  · intro llm tools parse fuel msgs calls resp hok htools
    simp only [agentLoop, hok, htools, if_true]

/-- Witness for C8 at a concrete unknown-tool call inside the loop. -/
theorem tool_failure_absorbed_witness :
    registryExecute [] parseEmptyObj demoToolCall =
      .error ("tool not found: " ++ demoToolCall.function.name) ∧
    execToolMessage [] parseEmptyObj demoToolCall =
      { role := "tool",
        content := renderJ (.jObj [("error", .jStr "tool not found: get_order_detail")]),
        toolCalls := [], toolCallID := demoToolCall.id } ∧
    agentLoop alwaysToolLLM [] parseEmptyObj 1 [] 0 =
      agentLoop alwaysToolLLM [] parseEmptyObj 0
        ([] ++ choiceMessage demoToolResponse ::
          (requestedToolCalls demoToolResponse).map (execToolMessage [] parseEmptyObj)) 1 :=
  ⟨tool_failure_absorbed.1 [] parseEmptyObj demoToolCall rfl,
   tool_failure_absorbed.2.2.2.1 [] parseEmptyObj demoToolCall
     "tool not found: get_order_detail" rfl,
   tool_failure_absorbed.2.2.2.2 alwaysToolLLM [] parseEmptyObj 0 [] 0
     demoToolResponse rfl (by decide)⟩

end SupportBot
